import Mathlib

/-!
Shallow embedding of `src/Extension/Async-Call.ts` (holoflows-kit): the
call/response correlation core `AsyncCall`.

Modeling conventions
- JavaScript runtime values are modeled by `Value`.  Reflect-metadata
  annotations attached to an object travel with the value (`Value.vobj`
  carries its metadata bag); annotation values are abstracted to strings,
  since no operation of the core inspects them.
- The source's single `Serialization` interface (`serialization` /
  `deserialization`, lines 8-11) is applied at four call sites, each to a
  known message kind; it is modeled as four functions specialized by kind.
- Promise settlement is modeled by events `(future, Outcome)`: each proxy
  invocation creates a fresh promise, identified by a natural number.
- The pseudo-random id generator (`Math.random().toString(36).slice(2)`,
  lines 257-259) is external nondeterminism: the generated id is an input
  of the `call` action.  Nothing in the code constrains it.
- An async handler whose promise rejects with nobody awaiting it is an
  unhandled rejection; the model records such escapes in `Config.faults`.
- `console.log` / `console.debug` / `console.error` output and the
  `this`-binding of the executor (line 153) are purely observational and
  are not modeled.
-/

namespace AsyncCallTS

/-- A JavaScript value, as far as the AsyncCall core observes it.
`vobj` is an object-like value carrying its reflect-metadata bag;
`verr` is an `Error` instance with `message` and `stack`. -/
inductive Value where
  | vnull
  | vundefined
  | vbool (b : Bool)
  | vnum (n : Int)
  | vstr (s : String)
  | vobj (meta : List (String × String))
  | verr (message : String) (stack : String)
  deriving DecidableEq, Repr

/-- JavaScript truthiness of a `Value`. -/
def truthy : Value → Bool
  | .vnull => false
  | .vundefined => false
  | .vbool b => b
  | .vnum n => n != 0
  | .vstr s => s != ""
  | .vobj _ => true
  | .verr _ _ => true

/-- Source lines 227-229: `typeof it === 'object' ? it !== null : typeof it === 'function'`. -/
def isObject : Value → Bool
  | .vobj _ => true
  | .verr _ _ => true
  | _ => false

/-- A reflect-metadata bag, as produced by `getMetadata` (source lines 230-236):
a record mapping metadata keys to (abstracted) annotation values. -/
abbrev Metadata := List (String × String)

/-- Source lines 230-236: primitives have no metadata (`null`); for an object
the bag of all its own metadata keys is returned (`{}`, i.e. `some []`, when
none are defined).  `reflect-metadata` is loaded (line 2), so the
`'getOwnMetadataKeys' in Reflect` guard never fires. -/
def getMetadata : Value → Option Metadata
  | .vobj m => some m
  | .verr _ _ => some []
  | _ => none

/-- `Reflect.defineMetadata key value obj`: set one key of a bag, overwriting
an existing binding in place. -/
def setMetaKey : List (String × String) → String → String → List (String × String)
  | [], k, v => [(k, v)]
  | e :: rest, k, v => if e.1 = k then (k, v) :: rest else e :: setMetaKey rest k v

/-- Define every entry of `md` on the bag `old`, in order (source line 241). -/
def mergeMeta (old : Metadata) (md : Metadata) : Metadata :=
  md.foldl (fun acc kv => setMetaKey acc kv.1 kv.2) old

/-- Source lines 237-243: a no-op on primitives and on a `null` bag; otherwise
defines every entry of the bag on the object.  Metadata defined on `Error`
objects is observable by no modeled operation and is dropped. -/
def applyMetadata : Value → Option Metadata → Value
  | .vobj m, some md => .vobj (mergeMeta m md)
  | v, _ => v

/-- Source lines 214-219.  `metadata` entries are `Record | null`, aligned
with `args` by index; the field itself is optional. -/
structure Request where
  method : String
  args : List Value
  callId : String
  metadata : Option (List (Option Metadata))
  deriving DecidableEq, Repr

/-- The `error` field of a `Response`: either the declared
`{ message, stack }` shape (built from an `Error`, line 179), or the thrown
value carried as-is when it is not an `Error` instance (same line). -/
inductive ErrField where
  | payload (message : String) (stack : String)
  | raw (v : Value)
  deriving DecidableEq, Repr

/-- Source lines 220-226.  The source's `return` field is named `ret` here
(`return` is a keyword); `metadata` is the response-level annotation bag. -/
structure Response where
  method : String
  callId : String
  ret : Value
  error : Option ErrField
  metadata : Option Metadata
  deriving DecidableEq, Repr

/-- The source's `Serialization` interface (lines 8-11) is one
`serialization`/`deserialization` pair used at four call sites, each on a
known message kind; it is modeled by kind-specialized functions.  `P` is the
payload type of the `{key}-call` channel, `Q` of `{key}-return`.  A rejection
of the underlying promise is `.error` carrying the rejection reason. -/
structure Serialization (P Q : Type) where
  serReq : Request → Except Value P
  deserReq : P → Except Value Request
  serResp : Response → Except Value Q
  deserResp : Q → Except Value Response

/-- Source lines 15-22: the identity strategy; it never rejects. -/
def NoSerialization : Serialization Request Response :=
  { serReq := fun r => .ok r
    deserReq := fun p => .ok p
    serResp := fun r => .ok r
    deserResp := fun q => .ok q }

/-- Source lines 260-264 (Proxy `get`, after id generation): capture
per-argument metadata, then delete the `metadata` field if `metadataUsed` is
false.  Faithful to the source, `metadataUsed` is `args.some(x => x !== null)`
— a test on the arguments themselves, not on the captured bags. -/
def buildRequest (method : String) (args : List Value) (id : String) : Request :=
  let md := args.map getMetadata
  let metadataUsed := args.any (fun x => x ≠ Value.vnull)
  { method := method
    args := args
    callId := id
    metadata := if metadataUsed then some md else none }

/-- Outcome of awaiting one local implementation call: the promise resolves
with a value or rejects with a thrown value. -/
inductive ImplResult where
  | ok (v : Value)
  | threw (e : Value)
  deriving DecidableEq, Repr

/-- A local asynchronous function. -/
abbrev ImplFn := List Value → ImplResult

/-- The implementation table: `implementation[method]` (line 139); a missing
method yields `none` (falsy `executor`). -/
abbrev Impl := String → Option ImplFn

/-- Source line 179: `err instanceof Error ? { message, stack } : err`. -/
def thrownToField : Value → ErrField
  | .verr m s => .payload m s
  | v => .raw v

/-- Source lines 177-182: the error response built in the `catch` block
(`return: undefined`, no metadata field). -/
def errorResponse (method callId : String) (err : Value) : Response :=
  { method := method
    callId := callId
    ret := .vundefined
    error := some (thrownToField err)
    metadata := none }

/-- Source lines 166-173: the success response; the `metadata` field is the
result's bag and is deleted when it is `null`. -/
def successResponse (method callId : String) (result : Value) : Response :=
  { method := method
    callId := callId
    ret := result
    error := none
    metadata := getMetadata result }

/-- Source line 150: `data.metadata.forEach((meta, index) =>
applyMetadata(args[index], meta))` — applied positionally; surplus metadata
entries hit `args[index] === undefined` and are no-ops, surplus arguments are
untouched. -/
def applyEach : List Value → List (Option Metadata) → List Value
  | args, [] => args
  | [], _ => []
  | a :: args, m :: ms => applyMetadata a m :: applyEach args ms

/-- Source lines 148-151: reapply per-argument metadata when the request
carries a `metadata` field. -/
def applyArgsMeta (args : List Value) (md : Option (List (Option Metadata))) : List Value :=
  match md with
  | none => args
  | some ms => applyEach args ms

/-- Serialize and send a caught error as a response (source lines 177-183).
This runs inside the `catch` block: a failure of this serialization escapes
the handler as an unhandled rejection (`.error`). -/
def sendCaught (S : Serialization P Q) (req : Request) (err : Value) :
    Except Value (Option Q) :=
  match S.serResp (errorResponse req.method req.callId err) with
  | .ok q => .ok (some q)
  | .error e => .error e

/-- The `{key}-call` listener (source lines 135-185), as a function from the
incoming payload to the response payload it sends, if any.  `stk` stands for
the engine-generated stack text of `new Error(...)` at line 144.
`.error e` means the handler's own promise rejected with `e` and nothing
catches it: the deserialization at line 137 runs before the `try`, and a
serialization failure inside the `catch` (line 177) also escapes. -/
def onCallPayload (S : Serialization P Q) (impl : Impl) (lenient : Bool)
    (stk : String) (p : P) : Except Value (Option Q) :=
  match S.deserReq p with
  | .error e => .error e
  | .ok req =>
    match impl req.method with
    | none =>
      if lenient then
        .ok none
      else
        sendCaught S req (.verr ("Remote-call: " ++ req.method ++ "() not implemented!") stk)
    | some fn =>
      match fn (applyArgsMeta req.args req.metadata) with
      | .threw err => sendCaught S req err
      | .ok result =>
        match S.serResp (successResponse req.method req.callId result) with
        | .ok q => .ok (some q)
        | .error e => sendCaught S req e

/-- Truthiness of `data.error` (source line 202): a present
`{ message, stack }` object is truthy; a raw carried value is tested as a
JavaScript value. -/
def errTruthy : Option ErrField → Bool
  | none => false
  | some (.payload _ _) => true
  | some (.raw v) => truthy v

/-- Source lines 203-204: `new Error(data.error.message)` with
`err.stack = data.error.stack`.  For a raw (non-`Error`) carried value both
fields read `undefined`; the resulting coerced strings are abstracted as
empty. -/
def respError : Option ErrField → Value
  | some (.payload m s) => .verr m s
  | _ => .verr "" ""

/-- A settlement of a pending call's promise. -/
inductive Outcome where
  | resolved (v : Value)
  | rejected (v : Value)
  deriving DecidableEq, Repr

/-- `map.get` on the call registry (first entry with the key). -/
def mapGet : List (String × Nat) → String → Option Nat
  | [], _ => none
  | e :: rest, k => if e.1 = k then some e.2 else mapGet rest k

/-- `map.set`: overwrite the value bound to an existing key in place,
else append (JS `Map` insertion order). -/
def mapSet : List (String × Nat) → String → Nat → List (String × Nat)
  | [], k, v => [(k, v)]
  | e :: rest, k, v => if e.1 = k then (k, v) :: rest else e :: mapSet rest k v

/-- `map.delete`: remove the entries bound to the key. -/
def mapDelete : List (String × Nat) → String → List (String × Nat)
  | [], _ => []
  | e :: rest, k => if e.1 = k then mapDelete rest k else e :: mapDelete rest k

/-- The `{key}-return` listener after deserialization (source lines 189-212):
look up the callId; drop if absent; otherwise delete the entry, then reject
(error truthy) or resolve the pending call.  The `apply` closure of lines
192-201 passes `applyMetadata` a freshly built object with no own enumerable
properties, so it defines nothing on the settled value; the settled value is
`data.return` (resp. the rebuilt `Error`) unchanged. -/
def handleResponse (reg : List (String × Nat)) (resp : Response) :
    List (String × Nat) × List (Nat × Outcome) :=
  match mapGet reg resp.callId with
  | none => (reg, [])
  | some f =>
    let reg' := mapDelete reg resp.callId
    if errTruthy resp.error then
      (reg', [(f, .rejected (respError resp.error))])
    else
      (reg', [(f, .resolved resp.ret)])

/-- The property key accessed on the Proxy: a string or a symbol
(source line 256 rejects non-strings). -/
inductive PropKey where
  | str (s : String)
  | sym
  deriving DecidableEq, Repr

/-- One externally triggered event on a core instance: a proxy invocation
(with the generated id and the fresh promise it creates), or delivery of a
payload on one of the two channels. -/
inductive Action (P Q : Type) where
  | call (key : PropKey) (args : List Value) (id : String) (f : Nat)
  | deliverCall (p : P)
  | deliverResp (q : Q)
  deriving DecidableEq, Repr

/-- Observable state of one core instance: the call registry (`map`,
line 134), the payloads sent on each channel, the settlements of the promises
the proxy handed out, and the rejections that escaped a handler unhandled. -/
structure Config (P Q : Type) where
  reg : List (String × Nat)
  sentReq : List P
  sentResp : List Q
  settled : List (Nat × Outcome)
  faults : List Value
  deriving DecidableEq, Repr

/-- The freshly constructed instance: empty registry, nothing sent. -/
def initConfig : Config P Q :=
  { reg := [], sentReq := [], sentResp := [], settled := [], faults := [] }

/-- One step of the instance.  `call` follows the Proxy `get` body (lines
253-269): reject non-string keys; serialize, and on success send then
register; on serialization failure reject the promise.  `deliverCall` and
`deliverResp` run the two listeners; a rejection escaping a handler is
recorded in `faults`. -/
def step (S : Serialization P Q) (impl : Impl) (lenient : Bool) (stk : String)
    (c : Config P Q) : Action P Q → Config P Q
  | .call key args id f =>
    match key with
    | .sym => { c with settled := c.settled ++ [(f, .rejected (.vstr "Only string can be keys"))] }
    | .str m =>
      match S.serReq (buildRequest m args id) with
      | .error e => { c with settled := c.settled ++ [(f, .rejected e)] }
      | .ok p => { c with sentReq := c.sentReq ++ [p], reg := mapSet c.reg id f }
  | .deliverCall p =>
    match onCallPayload S impl lenient stk p with
    | .error e => { c with faults := c.faults ++ [e] }
    | .ok none => c
    | .ok (some q) => { c with sentResp := c.sentResp ++ [q] }
  | .deliverResp q =>
    match S.deserResp q with
    | .error e => { c with faults := c.faults ++ [e] }
    | .ok resp =>
      let pr := handleResponse c.reg resp
      { c with reg := pr.1, settled := c.settled ++ pr.2 }

/-- Run a sequence of actions. -/
def run (S : Serialization P Q) (impl : Impl) (lenient : Bool) (stk : String)
    (c : Config P Q) (as : List (Action P Q)) : Config P Q :=
  as.foldl (step S impl lenient stk) c

/-- The operations the Proxy `get` body performs after building the request
(source lines 265-268), in program order: on success `message.send(CALL, data)`
strictly before `map.set(id, [resolve, reject])`; on serialization failure
only `reject`. -/
inductive ProxyOp (P : Type) where
  | publishReq (p : P)
  | register (id : String) (f : Nat)
  | settleNow (f : Nat) (o : Outcome)
  deriving DecidableEq, Repr

/-- The ordered operation list of one proxy invocation with a string key. -/
def proxyOps (S : Serialization P Q) (m : String) (args : List Value)
    (id : String) (f : Nat) : List (ProxyOp P) :=
  match S.serReq (buildRequest m args id) with
  | .error e => [.settleNow f (.rejected e)]
  | .ok p => [.publishReq p, .register id f]

/-- One proxy invocation during whose `message.send(CALL, ...)` the transport
synchronously delivers the response payload `q` on the `{key}-return`
channel.  The listener (line 186) is an async function: it suspends at
`await serializer.deserialization(_data)` (line 188), deferring the registry
lookup to a microtask; the proxy continuation then executes
`map.set(id, ...)` (line 267) before that microtask runs. -/
def syncDeliveryRun (S : Serialization P Q) (impl : Impl) (lenient : Bool)
    (stk : String) (c : Config P Q) (m : String) (args : List Value)
    (id : String) (f : Nat) (q : Q) : Config P Q :=
  match S.serReq (buildRequest m args id) with
  | .error e => { c with settled := c.settled ++ [(f, .rejected e)] }
  | .ok p =>
    let c1 := { c with sentReq := c.sentReq ++ [p] }
    let c2 := { c1 with reg := mapSet c1.reg id f }
    step S impl lenient stk c2 (.deliverResp q)

/-- Number of settlements recorded for the promise `f`. -/
def countSettles : List (Nat × Outcome) → Nat → Nat
  | [], _ => 0
  | e :: rest, f => (if e.1 = f then 1 else 0) + countSettles rest f

/-- Number of registry entries whose pending call is the promise `f`. -/
def countReg : List (String × Nat) → Nat → Nat
  | [], _ => 0
  | e :: rest, f => (if e.2 = f then 1 else 0) + countReg rest f

/-- The promises created by the `call` actions of a trace, in order. -/
def futuresOf : List (Action P Q) → List Nat
  | [] => []
  | .call _ _ _ f :: rest => f :: futuresOf rest
  | _ :: rest => futuresOf rest

/-- Number of `call` actions of a trace creating the promise `f`. -/
def countFut : List (Action P Q) → Nat → Nat
  | [], _ => 0
  | .call _ _ _ g :: rest, f => (if g = f then 1 else 0) + countFut rest f
  | _ :: rest, f => countFut rest f

/-- An implementation table with no methods at all. -/
def emptyImpl : Impl := fun _ => none

/-- The table `{ echo: async (x) => x }`. -/
def echoImpl : Impl := fun m =>
  if m = "echo" then some (fun args => .ok (args.headD .vundefined)) else none

/-- The table `{ fail: async () => { throw new Error("boom") } }`, the thrown
error carrying the engine stack text `stk`. -/
def failImpl (stk : String) : Impl := fun m =>
  if m = "fail" then some (fun _ => .threw (.verr "boom" stk)) else none

/-- A text serializer whose `deserialization` rejects on every payload, as
`JSON.parse` does on malformed text (source lines 23-31 with a payload that
is not valid JSON). -/
def failingDeserializer : Serialization String String :=
  { serReq := fun _ => .ok "{}"
    deserReq := fun _ => .error (.verr "Unexpected end of JSON input" "")
    serResp := fun _ => .ok "{}"
    deserResp := fun _ => .error (.verr "Unexpected end of JSON input" "") }

/-- A serializer whose `serialization` of requests rejects, as
`JSON.stringify` does on a cyclic argument. -/
def failingSerializer : Serialization String String :=
  { serReq := fun _ => .error (.verr "Converting circular structure to JSON" "")
    deserReq := fun _ => .error (.verr "Unexpected end of JSON input" "")
    serResp := fun _ => .ok "{}"
    deserResp := fun _ => .error (.verr "Unexpected end of JSON input" "") }

/-- A concrete well-formed response for `callId = "a"`, used as a witness
input. -/
def respA : Response :=
  { method := "m", callId := "a", ret := .vstr "v", error := none, metadata := none }

/-- A concrete error response for `callId = "a"`. -/
def respAerr : Response :=
  { method := "m", callId := "a", ret := .vundefined,
    error := some (.payload "boom" "at fail"), metadata := none }

/-- A concrete configuration with one outstanding call `"a" ↦ 0`. -/
def cfgA : Config Request Response :=
  { reg := [("a", 0)], sentReq := [], sentResp := [], settled := [], faults := [] }

/-- A concrete one-call trace. -/
def traceA : List (Action Request Response) :=
  [.call (.str "m") [] "a" 0]

/-! Helper lemmas about the registry map and the counting functions. -/

lemma countSettles_append (l l' : List (Nat × Outcome)) (f : Nat) :
    countSettles (l ++ l') f = countSettles l f + countSettles l' f := by
  induction l with
  | nil => simp [countSettles]
  | cons e rest ih => simp [countSettles, ih]; omega

lemma mapGet_mapSet_self (m : List (String × Nat)) (k : String) (v : Nat) :
    mapGet (mapSet m k v) k = some v := by
  induction m with
  | nil => simp [mapSet, mapGet]
  | cons e rest ih =>
    by_cases h : e.1 = k
    · simp [mapSet, h, mapGet]
    · simp [mapSet, h, mapGet, ih]

lemma mapGet_mapDelete_self (m : List (String × Nat)) (k : String) :
    mapGet (mapDelete m k) k = none := by
  induction m with
  | nil => simp [mapDelete, mapGet]
  | cons e rest ih =>
    by_cases h : e.1 = k
    · simp [mapDelete, h, ih]
    · simp [mapDelete, h, mapGet, ih]

lemma countReg_mapSet (m : List (String × Nat)) (k : String) (v : Nat) (f : Nat) :
    countReg (mapSet m k v) f ≤ countReg m f + (if v = f then 1 else 0) := by
  induction m with
  | nil => simp [mapSet, countReg]
  | cons e rest ih =>
    by_cases h : e.1 = k
    · simp only [mapSet, if_pos h, countReg]
      omega
    · simp only [mapSet, if_neg h, countReg]
      omega

lemma countReg_mapDelete_le (m : List (String × Nat)) (k : String) (f : Nat) :
    countReg (mapDelete m k) f ≤ countReg m f := by
  induction m with
  | nil => simp [mapDelete]
  | cons e rest ih =>
    by_cases h : e.1 = k
    · simp only [mapDelete, if_pos h, countReg]
      omega
    · simp only [mapDelete, if_neg h, countReg]
      omega

lemma countReg_mapDelete_get (m : List (String × Nat)) (k : String) (g : Nat)
    (hget : mapGet m k = some g) : countReg (mapDelete m k) g + 1 ≤ countReg m g := by
  induction m with
  | nil => simp [mapGet] at hget
  | cons e rest ih =>
    by_cases h : e.1 = k
    · simp only [mapGet, if_pos h, Option.some.injEq] at hget
      have hle := countReg_mapDelete_le rest k g
      have h1 : (if e.2 = g then 1 else 0) = 1 := by simp [hget]
      simp only [mapDelete, if_pos h, countReg]
      omega
    · simp only [mapGet, if_neg h] at hget
      have := ih hget
      simp only [mapDelete, if_neg h, countReg]
      omega

lemma mem_keys_mapSet {m : List (String × Nat)} {k k' : String} {v : Nat}
    (h : k' ∈ (mapSet m k v).map Prod.fst) : k' = k ∨ k' ∈ m.map Prod.fst := by
  induction m with
  | nil => simp [mapSet] at h; exact Or.inl h
  | cons e rest ih =>
    by_cases he : e.1 = k
    · simp only [mapSet, if_pos he, List.map_cons, List.mem_cons] at h
      rcases h with h | h
      · exact Or.inl h
      · exact Or.inr (List.mem_cons_of_mem _ h)
    · simp only [mapSet, if_neg he, List.map_cons, List.mem_cons] at h
      rcases h with h | h
      · exact Or.inr (List.mem_cons.mpr (Or.inl h))
      · rcases ih h with h' | h'
        · exact Or.inl h'
        · exact Or.inr (List.mem_cons_of_mem _ h')

lemma nodup_keys_mapSet {m : List (String × Nat)} (k : String) (v : Nat)
    (h : (m.map Prod.fst).Nodup) : ((mapSet m k v).map Prod.fst).Nodup := by
  induction m with
  | nil => simp [mapSet]
  | cons e rest ih =>
    simp only [List.map_cons, List.nodup_cons] at h
    by_cases he : e.1 = k
    · simp only [mapSet, if_pos he, List.map_cons, List.nodup_cons]
      exact ⟨he ▸ h.1, h.2⟩
    · simp only [mapSet, if_neg he, List.map_cons, List.nodup_cons]
      refine ⟨fun hmem => ?_, ih h.2⟩
      rcases mem_keys_mapSet hmem with h' | h'
      · exact he h'
      · exact h.1 h'

lemma mapDelete_sublist (m : List (String × Nat)) (k : String) :
    List.Sublist (mapDelete m k) m := by
  induction m with
  | nil => simp [mapDelete]
  | cons e rest ih =>
    by_cases h : e.1 = k
    · simp only [mapDelete, if_pos h]
      exact ih.cons e
    · simp only [mapDelete, if_neg h]
      exact ih.cons₂ e

lemma nodup_keys_mapDelete {m : List (String × Nat)} (k : String)
    (h : (m.map Prod.fst).Nodup) : ((mapDelete m k).map Prod.fst).Nodup :=
  h.sublist ((mapDelete_sublist m k).map Prod.fst)

lemma mapGet_none_iff {m : List (String × Nat)} {k : String} :
    mapGet m k = none ↔ k ∉ m.map Prod.fst := by
  induction m with
  | nil => simp [mapGet]
  | cons e rest ih =>
    by_cases h : e.1 = k
    · simp only [mapGet, if_pos h, List.map_cons]
      constructor
      · intro hc; exact absurd hc (by simp)
      · intro hmem; exact absurd (h ▸ List.mem_cons_self e.1 (rest.map Prod.fst)) hmem
    · simp only [mapGet, if_neg h, List.map_cons]
      rw [ih]
      constructor
      · intro hnm hmem
        rcases List.mem_cons.mp hmem with h1 | h1
        · exact h h1.symm
        · exact hnm h1
      · intro hnm h1; exact hnm (List.mem_cons_of_mem _ h1)

lemma notMem_countFut {as : List (Action P Q)} {f : Nat}
    (h : f ∉ futuresOf as) : countFut as f = 0 := by
  induction as with
  | nil => simp [countFut]
  | cons a rest ih =>
    cases a with
    | call key args id g =>
      simp only [futuresOf, List.mem_cons, not_or] at h
      have hg : ¬ g = f := fun hgf => h.1 hgf.symm
      simp [countFut, hg, ih h.2]
    | deliverCall p => simp only [futuresOf] at h; simp [countFut, ih h]
    | deliverResp q => simp only [futuresOf] at h; simp [countFut, ih h]

lemma nodup_countFut {as : List (Action P Q)} (h : (futuresOf as).Nodup) (f : Nat) :
    countFut as f ≤ 1 := by
  induction as with
  | nil => simp [countFut]
  | cons a rest ih =>
    cases a with
    | call key args id g =>
      simp only [futuresOf, List.nodup_cons] at h
      by_cases hg : g = f
      · subst hg
        simp [countFut, notMem_countFut h.1]
      · simp only [countFut, if_neg hg]
        simpa using ih h.2
    | deliverCall p => simp only [futuresOf] at h; simpa [countFut] using ih h
    | deliverResp q => simp only [futuresOf] at h; simpa [countFut] using ih h

lemma countFut_cons (a : Action P Q) (rest : List (Action P Q)) (f : Nat) :
    countFut (a :: rest) f = countFut [a] f + countFut rest f := by
  cases a <;> simp [countFut]

lemma handleResponse_none {reg : List (String × Nat)} {resp : Response}
    (hreg : mapGet reg resp.callId = none) : handleResponse reg resp = (reg, []) := by
  simp [handleResponse, hreg]

lemma handleResponse_found {reg : List (String × Nat)} {resp : Response} {g : Nat}
    (hreg : mapGet reg resp.callId = some g) :
    ∃ out, handleResponse reg resp = (mapDelete reg resp.callId, [(g, out)]) := by
  by_cases herr : errTruthy resp.error
  · exact ⟨.rejected (respError resp.error), by simp [handleResponse, hreg, herr]⟩
  · exact ⟨.resolved resp.ret, by simp [handleResponse, hreg, herr]⟩

lemma handleResponse_found_err {reg : List (String × Nat)} {r : Response} {g : Nat}
    (hreg : mapGet reg r.callId = some g) (herr : errTruthy r.error = true) :
    handleResponse reg r
      = (mapDelete reg r.callId, [(g, .rejected (respError r.error))]) := by
  simp [handleResponse, hreg, herr]

lemma handleResponse_found_ok {reg : List (String × Nat)} {resp : Response} {g : Nat}
    (hreg : mapGet reg resp.callId = some g) (herr : errTruthy resp.error = false) :
    handleResponse reg resp
      = (mapDelete reg resp.callId, [(g, .resolved resp.ret)]) := by
  simp [handleResponse, hreg, herr]

/-- One step settles or registers the promise `f` at most as many times as
the step's own `call` actions create it: settlements plus registry entries
for `f` grow by at most `countFut [a] f`. -/
lemma step_bound (S : Serialization P Q) (impl : Impl) (lenient : Bool)
    (stk : String) (c : Config P Q) (a : Action P Q) (f : Nat) :
    countSettles (step S impl lenient stk c a).settled f
        + countReg (step S impl lenient stk c a).reg f
      ≤ countSettles c.settled f + countReg c.reg f + countFut [a] f := by
  cases a with
  | call key args id g =>
    cases key with
    | sym =>
      simp only [step, countSettles_append, countFut, countSettles]
      omega
    | str m =>
      cases hser : S.serReq (buildRequest m args id) with
      | error e =>
        simp only [step, hser, countSettles_append, countFut, countSettles]
        omega
      | ok p =>
        simp only [step, hser, countFut]
        have := countReg_mapSet c.reg id g f
        omega
  | deliverCall p =>
    cases h : onCallPayload S impl lenient stk p with
    | error e => simp [step, h, countFut]
    | ok o => cases o <;> simp [step, h, countFut]
  | deliverResp q =>
    cases hq : S.deserResp q with
    | error e => simp [step, hq, countFut]
    | ok resp =>
      simp only [step, hq]
      cases hreg : mapGet c.reg resp.callId with
      | none =>
        simp [handleResponse, hreg, countFut]
      | some g =>
        have h1 := countReg_mapDelete_le c.reg resp.callId f
        have h2 := countReg_mapDelete_get c.reg resp.callId g hreg
        obtain ⟨out, hh⟩ := handleResponse_found hreg
        simp only [hh, countSettles_append, countSettles, countFut]
        by_cases hgf : g = f
        · have he : (if g = f then (1:Nat) else 0) = 1 := if_pos hgf
          subst hgf
          omega
        · have he : (if g = f then (1:Nat) else 0) = 0 := if_neg hgf
          omega

/-- Trace version of `step_bound`. -/
lemma run_bound (S : Serialization P Q) (impl : Impl) (lenient : Bool)
    (stk : String) (as : List (Action P Q)) (f : Nat) :
    ∀ c : Config P Q,
      countSettles (run S impl lenient stk c as).settled f
          + countReg (run S impl lenient stk c as).reg f
        ≤ countSettles c.settled f + countReg c.reg f + countFut as f := by
  induction as with
  | nil => intro c; simp [run, countFut]
  | cons a rest ih =>
    intro c
    have h1 := step_bound S impl lenient stk c a f
    have h2 := ih (step S impl lenient stk c a)
    have h3 : run S impl lenient stk c (a :: rest)
        = run S impl lenient stk (step S impl lenient stk c a) rest := rfl
    rw [h3, countFut_cons]
    omega

lemma applyMetadata_none (v : Value) : applyMetadata v none = v := by
  cases v <;> rfl

lemma getMetadata_eq_none {v : Value} (h : isObject v = false) : getMetadata v = none := by
  cases v <;> simp_all [isObject, getMetadata]

/-- Processing `buildRequest "echo" [v] i` against `{ echo: async (x) => x }`
produces the success response carrying `v` under callId `i`, for any
metadata-free argument. -/
lemma onCall_echo (v : Value) (i : String) (h : isObject v = false) :
    onCallPayload NoSerialization echoImpl true "" (buildRequest "echo" [v] i)
      = .ok (some { method := "echo", callId := i, ret := v, error := none
                    metadata := none }) := by
  have hm := getMetadata_eq_none h
  by_cases hv : v = Value.vnull
  · subst hv
    simp [onCallPayload, NoSerialization, echoImpl, buildRequest, applyArgsMeta,
      successResponse, getMetadata]
  · simp [onCallPayload, NoSerialization, echoImpl, buildRequest, applyArgsMeta,
      applyEach, applyMetadata_none, successResponse, hm, hv]

lemma step_deliverResp_found {P Q : Type} {S : Serialization P Q} {i : Impl}
    {l : Bool} {t : String} {c : Config P Q} {q : Q} {r : Response}
    {m : List (String × Nat)} {e : List (Nat × Outcome)}
    (hq : S.deserResp q = .ok r) (hh : handleResponse c.reg r = (m, e)) :
    step S i l t c (.deliverResp q)
      = { c with reg := m, settled := c.settled ++ e } := by
  simp [step, hq, hh]

lemma step_deliverResp_drop {P Q : Type} {S : Serialization P Q} {impl : Impl}
    {lenient : Bool} {stk : String} {c : Config P Q} {q : Q} {resp : Response}
    (hq : S.deserResp q = .ok resp) (hreg : mapGet c.reg resp.callId = none) :
    step S impl lenient stk c (.deliverResp q) = c := by
  cases c
  simp [step, hq, handleResponse_none hreg]

/-! Claim theorems. -/

/-- Claim C1: at most one incoming Response settles a Pending Call, and
exactly one if a well-formed Response with the matching callId is delivered
while the call is registered.  Over any trace whose `call` actions create
pairwise distinct promises, every promise is settled at most once; delivering
a response whose callId is registered settles exactly that pending call once,
deletes the registry entry first, and any later response bearing the same
callId is dropped without any effect. -/
theorem C1_response_settles_at_most_once
    {P Q : Type} (S : Serialization P Q) (impl : Impl) (lenient : Bool) (stk : String)
    (as : List (Action P Q)) (f : Nat) (c : Config P Q)
    (q q' : Q) (resp resp' : Response) (g : Nat)
    (hdist : (futuresOf as).Nodup)
    (hq : S.deserResp q = .ok resp)
    (hreg : mapGet c.reg resp.callId = some g)
    (hq' : S.deserResp q' = .ok resp')
    (hcid : resp'.callId = resp.callId) :
    countSettles (run S impl lenient stk initConfig as).settled f ≤ 1
    ∧ (∃ out, (step S impl lenient stk c (.deliverResp q)).settled
        = c.settled ++ [(g, out)])
    ∧ mapGet (step S impl lenient stk c (.deliverResp q)).reg resp.callId = none
    ∧ step S impl lenient stk (step S impl lenient stk c (.deliverResp q)) (.deliverResp q')
        = step S impl lenient stk c (.deliverResp q) := by
  obtain ⟨out, hh⟩ := handleResponse_found hreg
  have e1 := step_deliverResp_found (i := impl) (l := lenient) (t := stk) hq hh
  refine ⟨?_, ⟨out, ?_⟩, ?_, ?_⟩
  · have hb := run_bound S impl lenient stk as f initConfig
    have hcnt := nodup_countFut hdist f
    have h0 : countSettles (initConfig (P := P) (Q := Q)).settled f = 0 := rfl
    have h1 : countReg (initConfig (P := P) (Q := Q)).reg f = 0 := rfl
    omega
  · rw [e1]
  · rw [e1]; simp [mapGet_mapDelete_self]
  · have hnone : mapGet (step S impl lenient stk c (.deliverResp q)).reg resp'.callId = none := by
      rw [e1]; simp [hcid, mapGet_mapDelete_self]
    exact step_deliverResp_drop hq' hnone

/-- Witness for C1 at a concrete instance: identity serializer, a one-call
trace, one registered call `"a" ↦ 0`, and the same well-formed response
delivered twice. -/
theorem C1_response_settles_at_most_once_witness :
    ((futuresOf traceA).Nodup
      ∧ NoSerialization.deserResp respA = Except.ok respA
      ∧ mapGet cfgA.reg respA.callId = some 0
      ∧ respA.callId = respA.callId)
    ∧ (countSettles (run NoSerialization emptyImpl true "" initConfig traceA).settled 0 ≤ 1
      ∧ (∃ out, (step NoSerialization emptyImpl true "" cfgA (.deliverResp respA)).settled
          = cfgA.settled ++ [(0, out)])
      ∧ mapGet (step NoSerialization emptyImpl true "" cfgA (.deliverResp respA)).reg
          respA.callId = none
      ∧ step NoSerialization emptyImpl true ""
            (step NoSerialization emptyImpl true "" cfgA (.deliverResp respA))
            (.deliverResp respA)
          = step NoSerialization emptyImpl true "" cfgA (.deliverResp respA)) :=
  ⟨⟨by decide, rfl, by decide, rfl⟩,
    C1_response_settles_at_most_once NoSerialization emptyImpl true "" traceA 0 cfgA
      respA respA respA respA 0 (by decide) rfl (by decide) rfl rfl⟩

/-- Claim C2: two concurrent outstanding calls with distinct callIds settle by
identifier, not by arrival order.  Both requests are sent; the echo
implementation answers each with its own argument under its own callId; with
the two responses delivered in reverse order, the first promise resolves to
the first argument and the second to the second. -/
theorem C2_distinct_calls_settle_by_callId
    (v1 v2 : Value) (i1 i2 : String) (f1 f2 : Nat)
    (hne : i1 ≠ i2) (h1 : isObject v1 = false) (h2 : isObject v2 = false) :
    (run NoSerialization echoImpl true "" initConfig
        [.call (.str "echo") [v1] i1 f1, .call (.str "echo") [v2] i2 f2]).sentReq
      = [buildRequest "echo" [v1] i1, buildRequest "echo" [v2] i2]
    ∧ ∃ q1 q2 : Response,
        onCallPayload NoSerialization echoImpl true "" (buildRequest "echo" [v1] i1)
          = .ok (some q1)
      ∧ onCallPayload NoSerialization echoImpl true "" (buildRequest "echo" [v2] i2)
          = .ok (some q2)
      ∧ q1.callId = i1 ∧ q1.ret = v1 ∧ q2.callId = i2 ∧ q2.ret = v2
      ∧ (run NoSerialization echoImpl true ""
            (run NoSerialization echoImpl true "" initConfig
              [.call (.str "echo") [v1] i1 f1, .call (.str "echo") [v2] i2 f2])
            [.deliverResp q2, .deliverResp q1]).settled
          = [(f2, .resolved v2), (f1, .resolved v1)] := by
  have hA : run NoSerialization echoImpl true "" initConfig
      [.call (.str "echo") [v1] i1 f1, .call (.str "echo") [v2] i2 f2]
      = { reg := [(i1, f1), (i2, f2)],
          sentReq := [buildRequest "echo" [v1] i1, buildRequest "echo" [v2] i2],
          sentResp := [], settled := [], faults := [] } := by
    simp [run, step, NoSerialization, initConfig, mapSet, hne]
  refine ⟨by rw [hA],
    ⟨{ method := "echo", callId := i1, ret := v1, error := none, metadata := none },
     { method := "echo", callId := i2, ret := v2, error := none, metadata := none },
     onCall_echo v1 i1 h1, onCall_echo v2 i2 h2, rfl, rfl, rfl, rfl, ?_⟩⟩
  rw [hA]
  have hget2 : mapGet [(i1, f1), (i2, f2)] i2 = some f2 := by simp [mapGet, hne]
  have hh2 : handleResponse [(i1, f1), (i2, f2)]
      { method := "echo", callId := i2, ret := v2, error := none, metadata := none }
      = (mapDelete [(i1, f1), (i2, f2)] i2, [(f2, .resolved v2)]) :=
    handleResponse_found_ok hget2 rfl
  have hdel2 : mapDelete [(i1, f1), (i2, f2)] i2 = [(i1, f1)] := by
    simp [mapDelete, hne]
  rw [hdel2] at hh2
  have hget1 : mapGet [(i1, f1)] i1 = some f1 := by simp [mapGet]
  have hh1 : handleResponse [(i1, f1)]
      { method := "echo", callId := i1, ret := v1, error := none, metadata := none }
      = (mapDelete [(i1, f1)] i1, [(f1, .resolved v1)]) :=
    handleResponse_found_ok hget1 rfl
  have hdel1 : mapDelete [(i1, f1)] i1 = [] := by simp [mapDelete]
  rw [hdel1] at hh1
  have e2 := step_deliverResp_found (S := NoSerialization) (i := echoImpl)
    (l := true) (t := "")
    (c := { reg := [(i1, f1), (i2, f2)]
            sentReq := [buildRequest "echo" [v1] i1, buildRequest "echo" [v2] i2]
            sentResp := [], settled := [], faults := [] })
    (q := { method := "echo", callId := i2, ret := v2, error := none, metadata := none })
    rfl hh2
  simp only [run, List.foldl]
  rw [e2]
  simp [step, NoSerialization, hh1]

/-- Witness for C2: `remote.echo("x")` under id `"a"` (promise 0) and
`remote.echo("y")` under id `"b"` (promise 1), responses delivered in reverse
order. -/
theorem C2_distinct_calls_settle_by_callId_witness :
    (("a" : String) ≠ "b" ∧ isObject (.vstr "x") = false ∧ isObject (.vstr "y") = false)
    ∧ ((run NoSerialization echoImpl true "" initConfig
          [.call (.str "echo") [.vstr "x"] "a" 0, .call (.str "echo") [.vstr "y"] "b" 1]).sentReq
        = [buildRequest "echo" [.vstr "x"] "a", buildRequest "echo" [.vstr "y"] "b"]
      ∧ ∃ q1 q2 : Response,
          onCallPayload NoSerialization echoImpl true "" (buildRequest "echo" [.vstr "x"] "a")
            = .ok (some q1)
        ∧ onCallPayload NoSerialization echoImpl true "" (buildRequest "echo" [.vstr "y"] "b")
            = .ok (some q2)
        ∧ q1.callId = "a" ∧ q1.ret = .vstr "x" ∧ q2.callId = "b" ∧ q2.ret = .vstr "y"
        ∧ (run NoSerialization echoImpl true ""
              (run NoSerialization echoImpl true "" initConfig
                [.call (.str "echo") [.vstr "x"] "a" 0, .call (.str "echo") [.vstr "y"] "b" 1])
              [.deliverResp q2, .deliverResp q1]).settled
            = [(1, .resolved (.vstr "y")), (0, .resolved (.vstr "x"))]) :=
  ⟨⟨by decide, rfl, rfl⟩,
    C2_distinct_calls_settle_by_callId (.vstr "x") (.vstr "y") "a" "b" 0 1
      (by decide) rfl rfl⟩

/-- Claim C3: a registered Response with an error field rejects the pending
call with an Error rebuilt from the carried message and stack; one without an
error field resolves it with the carried return value; and end to end, an
implementation that throws `new Error("boom")` makes the caller's promise
reject with an error whose message is `"boom"`. -/
theorem C3_error_field_rejects_otherwise_resolves
    (reg1 reg2 : List (String × Nat)) (resp1 resp2 : Response) (g1 g2 : Nat)
    (m s : String) (id : String) (g : Nat) (st : String)
    (hreg1 : mapGet reg1 resp1.callId = some g1)
    (herr1 : resp1.error = some (.payload m s))
    (hreg2 : mapGet reg2 resp2.callId = some g2)
    (herr2 : resp2.error = none) :
    handleResponse reg1 resp1
      = (mapDelete reg1 resp1.callId, [(g1, .rejected (.verr m s))])
    ∧ handleResponse reg2 resp2
      = (mapDelete reg2 resp2.callId, [(g2, .resolved resp2.ret)])
    ∧ ∃ q : Response,
        onCallPayload NoSerialization (failImpl st) true "" (buildRequest "fail" [] id)
          = .ok (some q)
      ∧ q.error = some (.payload "boom" st)
      ∧ handleResponse [(id, g)] q = ([], [(g, .rejected (.verr "boom" st))]) := by
  refine ⟨?_, handleResponse_found_ok hreg2 (by simp [errTruthy, herr2]), ?_⟩
  · simpa [herr1, respError]
      using handleResponse_found_err hreg1 (by simp [errTruthy, herr1])
  · refine ⟨{ method := "fail", callId := id, ret := .vundefined
              error := some (.payload "boom" st), metadata := none },
      ?_, rfl, ?_⟩
    · simp [onCallPayload, NoSerialization, failImpl, buildRequest, applyArgsMeta,
        sendCaught, errorResponse, thrownToField]
    · have hget : mapGet [(id, g)] id = some g := by simp [mapGet]
      have := handleResponse_found_err (r :=
        { method := "fail", callId := id, ret := .vundefined
          error := some (.payload "boom" st), metadata := none }) hget rfl
      simpa [mapDelete, respError] using this

/-- Witness for C3 at a concrete instance: one error response and one success
response for the registered callId `"a"`, and the `fail` scenario under
id `"a"`, promise 0. -/
theorem C3_error_field_rejects_otherwise_resolves_witness :
    (mapGet cfgA.reg respAerr.callId = some 0
      ∧ respAerr.error = some (.payload "boom" "at fail")
      ∧ mapGet cfgA.reg respA.callId = some 0
      ∧ respA.error = none)
    ∧ (handleResponse cfgA.reg respAerr
        = (mapDelete cfgA.reg respAerr.callId, [(0, .rejected (.verr "boom" "at fail"))])
      ∧ handleResponse cfgA.reg respA
        = (mapDelete cfgA.reg respA.callId, [(0, .resolved respA.ret)])
      ∧ ∃ q : Response,
          onCallPayload NoSerialization (failImpl "at fail") true ""
              (buildRequest "fail" [] "a")
            = .ok (some q)
        ∧ q.error = some (.payload "boom" "at fail")
        ∧ handleResponse [("a", 0)] q = ([], [(0, .rejected (.verr "boom" "at fail"))])) :=
  ⟨⟨by decide, by decide, by decide, by decide⟩,
    C3_error_field_rejects_otherwise_resolves cfgA.reg cfgA.reg respAerr respA 0 0
      "boom" "at fail" "a" 0 "at fail" (by decide) (by decide) (by decide) (by decide)⟩

/-- Claim C4: a Request naming a method absent from the implementation table
is dropped with no response under the lenient policy (the caller stays
registered and unsettled), while the strict policy sends an error response
whose message names the method and says it is not implemented, rejecting the
caller with that message. -/
theorem C4_not_implemented_policies
    (impl : Impl) (m : String) (args : List Value) (id : String) (f : Nat)
    (stk : String) (cB : Config Request Response)
    (hm : impl m = none) :
    step NoSerialization impl true stk cB (.deliverCall (buildRequest m args id)) = cB
    ∧ step NoSerialization impl true stk initConfig (.call (.str m) args id f)
        = { reg := [(id, f)], sentReq := [buildRequest m args id], sentResp := []
            settled := [], faults := [] }
    ∧ ∃ q : Response,
        onCallPayload NoSerialization impl false stk (buildRequest m args id)
          = .ok (some q)
      ∧ q.error = some (.payload ("Remote-call: " ++ m ++ "() not implemented!") stk)
      ∧ handleResponse [(id, f)] q
          = ([], [(f, .rejected
              (.verr ("Remote-call: " ++ m ++ "() not implemented!") stk))]) := by
  refine ⟨?_, ?_, ?_⟩
  · simp [step, onCallPayload, NoSerialization, buildRequest, hm]
  · simp [step, NoSerialization, initConfig, mapSet]
  · refine ⟨{ method := m, callId := id, ret := .vundefined
              error := some (.payload ("Remote-call: " ++ m ++ "() not implemented!") stk)
              metadata := none },
      ?_, rfl, ?_⟩
    · simp [onCallPayload, NoSerialization, buildRequest, hm, sendCaught,
        errorResponse, thrownToField]
    · have hget : mapGet [(id, f)] id = some f := by simp [mapGet]
      have := handleResponse_found_err (r :=
        { method := m, callId := id, ret := .vundefined
          error := some (.payload ("Remote-call: " ++ m ++ "() not implemented!") stk)
          metadata := none }) hget rfl
      simpa [mapDelete, respError] using this

/-- Witness for C4: the unimplemented method `"multiply"` under id `"a"`,
promise 0, empty implementation table. -/
theorem C4_not_implemented_policies_witness :
    (emptyImpl "multiply" = none)
    ∧ (step NoSerialization emptyImpl true "" initConfig
          (.deliverCall (buildRequest "multiply" [] "a")) = initConfig
      ∧ step NoSerialization emptyImpl true "" initConfig
          (.call (.str "multiply") [] "a" 0)
        = { reg := [("a", 0)], sentReq := [buildRequest "multiply" [] "a"], sentResp := []
            settled := [], faults := [] }
      ∧ ∃ q : Response,
          onCallPayload NoSerialization emptyImpl false "" (buildRequest "multiply" [] "a")
            = .ok (some q)
        ∧ q.error = some (.payload ("Remote-call: " ++ "multiply" ++ "() not implemented!") "")
        ∧ handleResponse [("a", 0)] q
            = ([], [(0, .rejected
                (.verr ("Remote-call: " ++ "multiply" ++ "() not implemented!") ""))])) :=
  ⟨rfl, C4_not_implemented_policies emptyImpl "multiply" [] "a" 0 "" initConfig rfl⟩

/-- Claim C5 refuted on the code (code bug): `remote.echo("x")` has a single
primitive argument carrying no metadata (`getMetadata` is `null` for it), yet
the built Request still contains the `metadata` field (as `[null]`): line 263
tests `args.some(x => x !== null)` on the arguments themselves instead of on
the captured metadata, so any call with a non-null argument keeps the field
even when every captured bag is null. -/
theorem C5_metadata_field_kept_for_metadata_free_args :
    ([Value.vstr "x"].map getMetadata = [none])
    ∧ (buildRequest "echo" [.vstr "x"] "id1").metadata = some [none]
    ∧ (buildRequest "echo" [.vstr "x"] "id1").metadata ≠ none := by
  refine ⟨rfl, by decide, by decide⟩

/-- Claim C6: when request serialization fails, the caller's promise is
rejected with the serializer's rejection reason, nothing is published on the
call channel and no registry entry is ever inserted; when it succeeds, the
payload is sent and only then is the pending call registered. -/
theorem C6_serialization_failure_rejects_without_send_or_register
    {P Q P' Q' : Type} (S : Serialization P Q) (S' : Serialization P' Q')
    (impl impl' : Impl) (len len' : Bool) (stk stk' : String)
    (c : Config P Q) (c' : Config P' Q') (m m' : String) (args args' : List Value)
    (id id' : String) (f f' : Nat) (e : Value) (p : P')
    (hser : S.serReq (buildRequest m args id) = .error e)
    (hok : S'.serReq (buildRequest m' args' id') = .ok p) :
    step S impl len stk c (.call (.str m) args id f)
      = { c with settled := c.settled ++ [(f, .rejected e)] }
    ∧ step S' impl' len' stk' c' (.call (.str m') args' id' f')
      = { c' with sentReq := c'.sentReq ++ [p], reg := mapSet c'.reg id' f' } := by
  constructor
  · simp [step, hser]
  · simp [step, hok]

/-- Witness for C6: a serializer that rejects requests (as `JSON.stringify`
does on a cyclic argument), next to the identity serializer accepting them. -/
theorem C6_serialization_failure_rejects_witness :
    (failingSerializer.serReq (buildRequest "m" [] "a")
        = .error (.verr "Converting circular structure to JSON" "")
      ∧ NoSerialization.serReq (buildRequest "m" [] "a") = .ok (buildRequest "m" [] "a"))
    ∧ (step failingSerializer emptyImpl true "" initConfig (.call (.str "m") [] "a" 0)
        = { reg := [], sentReq := [], sentResp := []
            settled := [(0, .rejected (.verr "Converting circular structure to JSON" ""))]
            faults := [] }
      ∧ step NoSerialization emptyImpl true "" initConfig (.call (.str "m") [] "a" 0)
        = { reg := [("a", 0)], sentReq := [buildRequest "m" [] "a"], sentResp := []
            settled := [], faults := [] }) :=
  ⟨⟨rfl, rfl⟩,
    C6_serialization_failure_rejects_without_send_or_register
      failingSerializer NoSerialization emptyImpl emptyImpl true true "" ""
      initConfig initConfig "m" "m" [] [] "a" "a" 0 0
      (.verr "Converting circular structure to JSON" "") (buildRequest "m" [] "a")
      rfl rfl⟩

lemma step_keys_nodup {P Q : Type} (S : Serialization P Q) (impl : Impl)
    (len : Bool) (stk : String) (c : Config P Q) (a : Action P Q)
    (h : (c.reg.map Prod.fst).Nodup) :
    ((step S impl len stk c a).reg.map Prod.fst).Nodup := by
  cases a with
  | call key args id f =>
    cases key with
    | sym => simpa [step]
    | str m =>
      cases hser : S.serReq (buildRequest m args id) with
      | error e => simpa [step, hser]
      | ok p => simpa [step, hser] using nodup_keys_mapSet id f h
  | deliverCall p =>
    cases hcp : onCallPayload S impl len stk p with
    | error e => simpa [step, hcp]
    | ok o => cases o <;> simpa [step, hcp]
  | deliverResp q =>
    cases hq : S.deserResp q with
    | error e => simpa [step, hq]
    | ok resp =>
      cases hreg : mapGet c.reg resp.callId with
      | none => simpa [step, hq, handleResponse_none hreg]
      | some g =>
        obtain ⟨out, hh⟩ := handleResponse_found hreg
        simpa [step, hq, hh] using nodup_keys_mapDelete resp.callId h

lemma run_keys_nodup {P Q : Type} (S : Serialization P Q) (impl : Impl)
    (len : Bool) (stk : String) (as : List (Action P Q)) :
    ∀ c : Config P Q, (c.reg.map Prod.fst).Nodup →
      ((run S impl len stk c as).reg.map Prod.fst).Nodup := by
  induction as with
  | nil => intro c h; exact h
  | cons a rest ih =>
    intro c h
    exact ih (step S impl len stk c a) (step_keys_nodup S impl len stk c a h)

/-- Claim C7 (amended): in every reachable state the registry holds pairwise
distinct callIds (`Map` keying), and a sent Request's callId is unique among
the currently outstanding calls whenever the freshly generated identifier is
not already registered; nothing checks freshness, so on a generator collision
the Request is still sent and the earlier entry is overwritten (see the
counterexample). -/
theorem C7_outstanding_callIds_distinct
    {P Q : Type} (S : Serialization P Q) (impl : Impl) (len : Bool) (stk : String)
    (as : List (Action P Q)) (c : Config P Q) (m : String) (args : List Value)
    (id : String) (f : Nat) (p : P)
    (hfresh : mapGet c.reg id = none)
    (hser : S.serReq (buildRequest m args id) = .ok p) :
    ((run S impl len stk initConfig as).reg.map Prod.fst).Nodup
    ∧ step S impl len stk c (.call (.str m) args id f)
        = { c with sentReq := c.sentReq ++ [p], reg := mapSet c.reg id f }
    ∧ id ∉ c.reg.map Prod.fst := by
  refine ⟨run_keys_nodup S impl len stk as initConfig (by simp [initConfig]), ?_, ?_⟩
  · simp [step, hser]
  · exact mapGet_none_iff.mp hfresh

/-- Witness for C7 (amended) at a concrete instance: identity serializer,
a fresh id `"a"` over the empty registry. -/
theorem C7_outstanding_callIds_distinct_witness :
    (mapGet (initConfig (P := Request) (Q := Response)).reg "a" = none
      ∧ NoSerialization.serReq (buildRequest "m" [] "a") = .ok (buildRequest "m" [] "a"))
    ∧ (((run NoSerialization emptyImpl true "" initConfig traceA).reg.map Prod.fst).Nodup
      ∧ step NoSerialization emptyImpl true "" initConfig (.call (.str "m") [] "a" 0)
          = { reg := [("a", 0)], sentReq := [buildRequest "m" [] "a"], sentResp := []
              settled := [], faults := [] }
      ∧ "a" ∉ (initConfig (P := Request) (Q := Response)).reg.map Prod.fst) :=
  ⟨⟨rfl, rfl⟩,
    C7_outstanding_callIds_distinct NoSerialization emptyImpl true "" traceA
      initConfig "m" [] "a" 0 (buildRequest "m" [] "a") rfl rfl⟩

/-- Counterexample to claim C7 as stated: nothing prevents the pseudo-random
generator from returning an id equal to a currently outstanding one.  With
the duplicate id `"k7"`, the second invocation's Request is still sent
(two payloads on the call channel) although `"k7"` is outstanding, and the
registry entry of the first pending call (promise 0) is overwritten by the
second (promise 1), orphaning promise 0. -/
theorem C7_counterexample_duplicate_id_sent :
    (run NoSerialization emptyImpl true "" initConfig
        [.call (.str "m") [] "k7" 0]).reg = [("k7", 0)]
    ∧ (run NoSerialization emptyImpl true "" initConfig
        [.call (.str "m") [] "k7" 0, .call (.str "m") [] "k7" 1]).sentReq
      = [buildRequest "m" [] "k7", buildRequest "m" [] "k7"]
    ∧ (run NoSerialization emptyImpl true "" initConfig
        [.call (.str "m") [] "k7" 0, .call (.str "m") [] "k7" 1]).reg
      = [("k7", 1)] := by
  refine ⟨rfl, rfl, rfl⟩

/-- Claim C8: a Response whose callId is not registered is dropped: the whole
configuration (registry, every pending promise's settlements, sent payloads,
faults) is unchanged and no error is surfaced anywhere. -/
theorem C8_unknown_callId_response_is_noop
    {P Q : Type} (S : Serialization P Q) (impl : Impl) (len : Bool) (stk : String)
    (c : Config P Q) (q : Q) (resp : Response)
    (hq : S.deserResp q = .ok resp)
    (hmiss : mapGet c.reg resp.callId = none) :
    step S impl len stk c (.deliverResp q) = c :=
  step_deliverResp_drop hq hmiss

/-- Witness for C8: the response for callId `"a"` delivered to an instance
with an empty registry. -/
theorem C8_unknown_callId_response_is_noop_witness :
    (NoSerialization.deserResp respA = .ok respA
      ∧ mapGet (initConfig (P := Request) (Q := Response)).reg respA.callId = none)
    ∧ step NoSerialization emptyImpl true "" initConfig (.deliverResp respA) = initConfig :=
  ⟨⟨rfl, rfl⟩,
    C8_unknown_callId_response_is_noop NoSerialization emptyImpl true ""
      initConfig respA respA rfl rfl⟩

/-- Claim C9 (amended): a payload whose deserialization fails sends no
Response and touches no registry entry, but the dispatch is not absorbed
silently: the failure escapes the handler as an unhandled rejection (in the
CALL listener the deserialization at line 137 runs before the `try`; the
RESPONSE listener has no `try` at all). -/
theorem C9_deserialization_failure_no_response_but_escapes
    {P Q P' Q' : Type} (S : Serialization P Q) (S' : Serialization P' Q')
    (impl impl' : Impl) (len len' : Bool) (stk stk' : String)
    (c : Config P Q) (c' : Config P' Q') (p : P) (q : Q') (e e' : Value)
    (hd : S.deserReq p = .error e)
    (hd' : S'.deserResp q = .error e') :
    step S impl len stk c (.deliverCall p) = { c with faults := c.faults ++ [e] }
    ∧ step S' impl' len' stk' c' (.deliverResp q)
        = { c' with faults := c'.faults ++ [e'] } := by
  constructor
  · simp [step, onCallPayload, hd]
  · simp [step, hd']

/-- Witness for C9 (amended): a deserializer rejecting the malformed payloads
on both channels. -/
theorem C9_deserialization_failure_no_response_but_escapes_witness :
    (failingDeserializer.deserReq "nonsense"
        = .error (.verr "Unexpected end of JSON input" "")
      ∧ failingDeserializer.deserResp "nonsense"
        = .error (.verr "Unexpected end of JSON input" ""))
    ∧ (step failingDeserializer emptyImpl true "" initConfig (.deliverCall "nonsense")
        = { reg := [], sentReq := [], sentResp := [], settled := []
            faults := [.verr "Unexpected end of JSON input" ""] }
      ∧ step failingDeserializer emptyImpl true "" initConfig (.deliverResp "nonsense")
        = { reg := [], sentReq := [], sentResp := [], settled := []
            faults := [.verr "Unexpected end of JSON input" ""] }) :=
  ⟨⟨rfl, rfl⟩,
    C9_deserialization_failure_no_response_but_escapes
      failingDeserializer failingDeserializer emptyImpl emptyImpl true true "" ""
      initConfig initConfig "nonsense" "nonsense"
      (.verr "Unexpected end of JSON input" "") (.verr "Unexpected end of JSON input" "")
      rfl rfl⟩

/-- Counterexample to claim C9 as stated: the claim asserts the dispatch
aborts with no unhandled fault.  On a payload whose deserialization fails,
no response is sent and the registry is untouched, but the handler's task
ends with the deserialization error unhandled (the recorded fault list is
nonempty), because the deserialization happens outside any `try`/`catch`. -/
theorem C9_counterexample_deserialization_failure_escapes :
    (failingDeserializer.deserReq "]junk["
        = .error (.verr "Unexpected end of JSON input" ""))
    ∧ (step failingDeserializer emptyImpl true "" initConfig (.deliverCall "]junk[")).faults
        = [.verr "Unexpected end of JSON input" ""]
    ∧ (step failingDeserializer emptyImpl true "" initConfig (.deliverCall "]junk[")).faults
        ≠ []
    ∧ (step failingDeserializer emptyImpl true "" initConfig (.deliverCall "]junk[")).sentResp
        = []
    ∧ (step failingDeserializer emptyImpl true "" initConfig (.deliverCall "]junk[")).reg
        = [] := by
  refine ⟨rfl, rfl, by decide, rfl, rfl⟩

/-- Claim C10 (amended): the Request is published on the call channel
strictly before the pending call is registered (program order of lines
266-267); but a Response delivered synchronously during the publish step is
not dropped: the return-channel listener suspends at its deserialization
await, so its registry lookup runs only after `map.set`, and the caller's
promise settles with that Response while the registry entry is consumed. -/
theorem C10_publish_precedes_register_sync_response_settles
    {P Q : Type} (S : Serialization P Q) (impl : Impl) (len : Bool) (stk : String)
    (c : Config P Q) (m : String) (args : List Value) (id : String) (f : Nat)
    (p : P) (q : Q) (resp : Response)
    (hser : S.serReq (buildRequest m args id) = .ok p)
    (hq : S.deserResp q = .ok resp)
    (hid : resp.callId = id) :
    proxyOps S m args id f = [.publishReq p, .register id f]
    ∧ (∃ out, (syncDeliveryRun S impl len stk c m args id f q).settled
        = c.settled ++ [(f, out)])
    ∧ mapGet (syncDeliveryRun S impl len stk c m args id f q).reg id = none := by
  have hget : mapGet (mapSet c.reg id f) resp.callId = some f := by
    rw [hid]; exact mapGet_mapSet_self c.reg id f
  obtain ⟨out, hh⟩ := handleResponse_found hget
  have e1 : syncDeliveryRun S impl len stk c m args id f q
      = { c with sentReq := c.sentReq ++ [p]
                 reg := mapDelete (mapSet c.reg id f) resp.callId
                 settled := c.settled ++ [(f, out)] } := by
    simp only [syncDeliveryRun, hser]
    rw [step_deliverResp_found
      (c := { c with sentReq := c.sentReq ++ [p], reg := mapSet c.reg id f }) hq hh]
  refine ⟨by simp [proxyOps, hser], ⟨out, by rw [e1]⟩, ?_⟩
  rw [e1]
  show mapGet (mapDelete (mapSet c.reg id f) resp.callId) id = none
  rw [← hid]
  exact mapGet_mapDelete_self _ _

/-- Witness for C10 (amended): identity serializer, call `"echo"` under id
`"a"` (promise 0), the matching response delivered synchronously during the
publish step. -/
theorem C10_publish_precedes_register_sync_response_settles_witness :
    (NoSerialization.serReq (buildRequest "echo" [] "a") = .ok (buildRequest "echo" [] "a")
      ∧ NoSerialization.deserResp respA = .ok respA
      ∧ respA.callId = "a")
    ∧ (proxyOps NoSerialization "echo" [] "a" 0
        = [.publishReq (buildRequest "echo" [] "a"), .register "a" 0]
      ∧ (∃ out, (syncDeliveryRun NoSerialization emptyImpl true "" initConfig
            "echo" [] "a" 0 respA).settled
          = (initConfig (P := Request) (Q := Response)).settled ++ [(0, out)])
      ∧ mapGet (syncDeliveryRun NoSerialization emptyImpl true "" initConfig
            "echo" [] "a" 0 respA).reg "a" = none) :=
  ⟨⟨rfl, rfl, rfl⟩,
    C10_publish_precedes_register_sync_response_settles NoSerialization emptyImpl
      true "" initConfig "echo" [] "a" 0 (buildRequest "echo" [] "a") respA respA
      rfl rfl rfl⟩

/-- Counterexample to claim C10 as stated: the claim predicts a synchronously
delivered matching Response finds no registry entry, is dropped, and leaves
the caller's promise unsettled.  Running the synchronous-delivery scenario on
the identity serializer, promise 0 is settled (resolved with the response's
return value) and the registry entry has been consumed. -/
theorem C10_counterexample_sync_response_not_dropped :
    (syncDeliveryRun NoSerialization emptyImpl true "" initConfig
        "echo" [] "a" 0 respA).settled = [(0, .resolved (.vstr "v"))]
    ∧ (syncDeliveryRun NoSerialization emptyImpl true "" initConfig
        "echo" [] "a" 0 respA).settled ≠ []
    ∧ (syncDeliveryRun NoSerialization emptyImpl true "" initConfig
        "echo" [] "a" 0 respA).reg = [] := by
  refine ⟨rfl, by decide, rfl⟩

end AsyncCallTS
